/-
Verification of the adaptive retrieval-and-answering engine
(hybrid retrieval, sufficiency gate, direct/agent answering, orchestration).

Shallow embedding of:
  src/graph_builder/graph_builder.py  (GraphBuilder: _decide_next_step,
    _generate_direct_answer, build, run)
  src/node/reactnode.py               (RAGNodes: retrieve_docs, generate_answer)
  src/vectorstore/vectorstore.py      (VectorStore.create_vectorstore: the
    hybrid retrieval pipeline configuration)

External calls (the judge / generation language model, the ReAct agent, the
document retriever) are modelled as function parameters returning
`Except String _`: `.error` is a raised exception, `.ok` a returned value.
-/
import Mathlib

/-- A document: immutable content plus metadata (cf. langchain `Document`;
spec §3 Data Model). Only `page_content` is consumed by the engine. -/
structure Document where
  page_content : String
  metadata : List (String × String) := []
deriving DecidableEq

/-- Modelled from the spec: the SessionState record `{question, retrieved_docs
(optional), answer (optional)}` (§3) — its source file `src/state/rag_state.py`
is referenced by the code but not included in the sources. -/
structure RAGState where
  question : String
  retrieved_docs : List Document := []
  answer : Option String := none
deriving DecidableEq

/-- The two outcomes of the sufficiency gate `_decide_next_step`:
the names of the two branch nodes of the graph. -/
inductive Decision where
  | generate_direct
  | agent_search
deriving DecidableEq

/-- Python `str.strip()`: drop whitespace characters from both ends. -/
def stripChars (l : List Char) : List Char :=
  ((l.dropWhile Char.isWhitespace).reverse.dropWhile Char.isWhitespace).reverse

/-- Python `str.lower()`: lowercase every character. -/
def lowerChars (l : List Char) : List Char :=
  l.map Char.toLower

/-- Python `pat in s`: substring (contiguous) occurrence test. -/
def containsTok (pat : List Char) : List Char → Bool
  | [] => pat.isEmpty
  | c :: rest => pat.isPrefixOf (c :: rest) || containsTok pat rest

/-- The affirmative token hardcoded in the judge prompt: `"oui"`. -/
def ouiTok : List Char := ['o', 'u', 'i']

/-- `"\n\n---\n\n".join(doc.page_content for doc in docs)` in
`_decide_next_step`. -/
def contextOf (docs : List Document) : String :=
  String.intercalate "\n\n---\n\n" (docs.map (·.page_content))

/-- `GraphBuilder._decide_next_step`: if no documents were retrieved, go to
`agent_search` without consulting the judge; otherwise ask the judge model
(one call) and route on whether its stripped, lowercased response contains
`"oui"`.  The `Nat` component counts judge-model invocations; a judge
exception propagates (there is no `try/except` in the source). -/
def decideNextStep (judge : String → String → Except String String)
    (st : RAGState) : Except String (Decision × Nat) :=
  if st.retrieved_docs = [] then
    .ok (.agent_search, 0)
  else
    match judge st.question (contextOf st.retrieved_docs) with
    | .error e => .error e
    | .ok resp =>
      let decision := lowerChars (stripChars resp.data)
      if containsTok ouiTok decision then .ok (.generate_direct, 1)
      else .ok (.agent_search, 1)

/-- Whether a gate outcome is the AGENT_SEARCH decision. -/
def isAgentSearch (r : Except String (Decision × Nat)) : Bool :=
  match r with
  | .ok (.agent_search, _) => true
  | _ => false

/-- A case-insensitive occurrence of token `tok` in text `s`: the lowercased
token occurs as a contiguous substring of the lowercased text. -/
def occursCI (tok s : String) : Bool :=
  containsTok (lowerChars tok.data) (lowerChars s.data)

/-- A concrete document, used to instantiate universally quantified
statements. -/
def docEx : Document := { page_content := "Paris is the capital of France." }

/-- `RAGNodes.retrieve_docs`: invoke the retriever on the question; on any
exception, return an empty `retrieved_docs` list instead of propagating. -/
def retrieveDocs (retr : String → Except String (List Document))
    (st : RAGState) : RAGState :=
  match retr st.question with
  | .ok docs => { st with retrieved_docs := docs }
  | .error _ => { st with retrieved_docs := [] }

/-- `"\n\n".join(doc.page_content for doc in docs)` in
`_generate_direct_answer`. -/
def contextDirect (docs : List Document) : String :=
  String.intercalate "\n\n" (docs.map (·.page_content))

/-- `GraphBuilder._generate_direct_answer`: one generation call on
(context, question); its response becomes the answer.  There is no
`try/except`: a model failure propagates out of the node. -/
def generateDirectAnswer (llm : String → String → Except String String)
    (st : RAGState) : Except String RAGState :=
  match llm (contextDirect st.retrieved_docs) st.question with
  | .ok resp => .ok { st with answer := some resp }
  | .error e => .error e

/-- `RAGNodes.generate_answer`: run the ReAct agent on the question; an empty
answer is replaced by a fixed fallback string, and an exception is caught and
turned into an error-message answer (`"Erreur de l\x27agent : ..."`), so the
node always returns normally. -/
def generateAnswer (agent : String → Except String String)
    (st : RAGState) : RAGState :=
  match agent st.question with
  | .ok ans =>
    let answer := if ans = "" then "Impossible de générer une réponse." else ans
    { st with answer := some answer }
  | .error e => { st with answer := some ("Erreur de l\x27agent : " ++ e) }

/-- `GraphBuilder.build` / `run`: the compiled graph.  Entry node
`"retriever"`, then the conditional edge `_decide_next_step` routes to exactly
one of `"generate_direct"` / `"agent_search"`, and both lead to END.  The
returned list is the trace of executed node names. -/
def runTurn (retr : String → Except String (List Document))
    (judge : String → String → Except String String)
    (llm : String → String → Except String String)
    (agent : String → Except String String)
    (q : String) : Except String (List String × RAGState) :=
  let st1 := retrieveDocs retr { question := q }
  match decideNextStep judge st1 with
  | .error e => .error e
  | .ok (.generate_direct, _) =>
    match generateDirectAnswer llm st1 with
    | .error e => .error e
    | .ok st2 => .ok (["retriever", "generate_direct"], st2)
  | .ok (.agent_search, _) =>
    .ok (["retriever", "agent_search"], generateAnswer agent st1)

/-
The hybrid retrieval pipeline configured in `VectorStore.create_vectorstore`:
dense (FAISS, k = 10) and sparse (BM25, k = 10) top-k search, EnsembleRetriever
fusion with weights (0.5, 0.5), CrossEncoderReranker (top_n = 3).  The fusion
and reranking algorithms themselves live in the langchain library, outside the
included sources, so they are modelled from the spec (§4.1).  Scores are
rationals; the dense-similarity, sparse-keyword and cross-encoder scoring
functions are abstract parameters.
-/

/-- Stable descending sort of documents paired with their scores under
`score`; ties keep the original order (spec §4.1: ties broken by stable
original rank order). -/
def rankBy (score : Document → ℚ) (docs : List Document) :
    List (Document × ℚ) :=
  (docs.map (fun d => (d, score d))).mergeSort
    (fun a b => decide (b.2 ≤ a.2))

/-- Modelled from the spec: step 1 of §4.1 — the Dense Index returns the top
`k_d = 10` documents by vector similarity (`sim`); the index internals are in
the FAISS/langchain collaborators, absent from the sources. -/
def denseTopK (sim : String → Document → ℚ) (corpus : List Document)
    (q : String) : List (Document × ℚ) :=
  (rankBy (sim q) corpus).take 10

/-- Modelled from the spec: step 2 of §4.1 — the Sparse Index returns the top
`k_s = 10` documents by keyword statistical score (`bm`); the BM25 internals
are in the langchain collaborator, absent from the sources. -/
def sparseTopK (bm : String → Document → ℚ) (corpus : List Document)
    (q : String) : List (Document × ℚ) :=
  (rankBy (bm q) corpus).take 10

/-- The weighted fused score of one document: documents in both lists
accumulate the weighted sum of their scores, documents in one list keep their
single weighted score (a missing document scores 0 on that side). -/
def fusedScore (wd ws : ℚ) (D S : List (Document × ℚ)) (d : Document) : ℚ :=
  wd * ((D.lookup d).getD 0) + ws * ((S.lookup d).getD 0)

/-- Modelled from the spec: step 3 of §4.1 — EnsembleRetriever fusion (the
algorithm is in the langchain library, absent from the sources): one
deduplicated candidate list ranked by weighted score combination, ties broken
by stable candidate order. -/
def fuse (D S : List (Document × ℚ)) (wd ws : ℚ) : List (Document × ℚ) :=
  (((D.map Prod.fst ++ S.map Prod.fst).dedup).map
    (fun d => (d, fusedScore wd ws D S d))).mergeSort
    (fun a b => decide (b.2 ≤ a.2))

/-- Modelled from the spec: step 4 of §4.1 — the CrossEncoderReranker
(`top_n = 3`, algorithm in the langchain library, absent from the sources)
rescores every (query, candidate) pair with `ce`, re-sorts purely by that
score and truncates to `N_final = 3`. -/
def rerank (ce : String → Document → ℚ) (q : String)
    (cands : List Document) : List Document :=
  (((cands.map (fun d => (d, ce q d))).mergeSort
    (fun a b => decide (b.2 ≤ a.2))).take 3).map Prod.fst

/-- Fusion with the configured weights (0.5, 0.5) followed by reranking:
the pipeline downstream of the two indices. -/
def retrievePipeline (D S : List (Document × ℚ))
    (ce : String → Document → ℚ) (q : String) : List Document :=
  rerank ce q ((fuse D S (1/2) (1/2)).map Prod.fst)

/-- The full `retrieve(query)` contract of §4.1 over a corpus. -/
def retrieve (sim bm ce : String → Document → ℚ) (corpus : List Document)
    (q : String) : List Document :=
  retrievePipeline (denseTopK sim corpus q) (sparseTopK bm corpus q) ce q

/-- Modelled from the spec: the failure policy of §4.1 — an unavailable
sub-index (`none`) contributes no candidates and retrieval proceeds with the
remaining index only (the degradation logic is in the langchain collaborators,
absent from the sources). -/
def retrieveAvail (dense sparse : Option (List (Document × ℚ)))
    (ce : String → Document → ℚ) (q : String) : List Document :=
  retrievePipeline (dense.getD []) (sparse.getD []) ce q

/-
Helper lemmas.
-/

theorem retrieveDocs_question (retr : String → Except String (List Document))
    (st : RAGState) : (retrieveDocs retr st).question = st.question := by
  unfold retrieveDocs
  cases retr st.question <;> rfl

theorem generateAnswer_answer_isSome (agent : String → Except String String)
    (st : RAGState) : (generateAnswer agent st).answer.isSome := by
  unfold generateAnswer
  cases agent st.question <;> simp

theorem generateDirectAnswer_ok_answer_isSome
    (llm : String → String → Except String String) (st st2 : RAGState)
    (h : generateDirectAnswer llm st = .ok st2) : st2.answer.isSome := by
  unfold generateDirectAnswer at h
  cases hll : llm (contextDirect st.retrieved_docs) st.question <;> rw [hll] at h
  · exact absurd h (by simp)
  · cases h
    simp

/-- C2: for every judge and state, if the retrieved document list is empty the
sufficiency gate returns AGENT_SEARCH with zero judge-model calls. -/
theorem empty_docs_short_circuits_to_agent_search
    (judge : String → String → Except String String) (st : RAGState)
    (h : st.retrieved_docs = []) :
    decideNextStep judge st = .ok (.agent_search, 0) := by
  simp [decideNextStep, h]

/-- C2 witness: a judge that would answer the affirmative token is never
consulted when no documents were retrieved. -/
theorem empty_docs_short_circuits_to_agent_search_witness :
    decideNextStep (fun _ _ => Except.ok "oui") { question := "q" } =
      Except.ok (Decision.agent_search, 0) :=
  empty_docs_short_circuits_to_agent_search _ _ rfl

/-- C4 counterexample: with a non-empty document list and a judge call that
raises, the gate propagates the exception; the result is not AGENT_SEARCH. -/
theorem judge_failure_not_agent_search :
    decideNextStep (fun _ _ => Except.error "timeout")
        { question := "q", retrieved_docs := [docEx] } =
      Except.error "timeout" ∧
    isAgentSearch (decideNextStep (fun _ _ => Except.error "timeout")
        { question := "q", retrieved_docs := [docEx] }) = false :=
  ⟨rfl, rfl⟩

/-- C4 amended: with a non-empty document list, a judge call that raises makes
the sufficiency gate propagate the exception (there is no `try/except` around
the judge call); only a successfully returned non-affirmative response yields
AGENT_SEARCH. -/
theorem judge_failure_propagates
    (judge : String → String → Except String String) (st : RAGState)
    (e : String) (hne : st.retrieved_docs ≠ [])
    (hj : judge st.question (contextOf st.retrieved_docs) = .error e) :
    decideNextStep judge st = .error e := by
  simp [decideNextStep, hne, hj]

/-- C4 amended witness: a concrete raising judge makes the gate raise. -/
theorem judge_failure_propagates_witness :
    decideNextStep (fun _ _ => Except.error "boom")
        { question := "q", retrieved_docs := [docEx] } =
      Except.error "boom" :=
  judge_failure_propagates _ _ _ (by simp) rfl

/-- C10: if the retriever invocation raises, the retrieval node returns an
empty `retrieved_docs` list instead of propagating, and the subsequent gate
decision is AGENT_SEARCH with no judge call — indistinguishable at the gate
from an empty corpus. -/
theorem retrieval_failure_forces_agent_search
    (retr : String → Except String (List Document))
    (judge : String → String → Except String String)
    (st : RAGState) (e : String) (h : retr st.question = .error e) :
    retrieveDocs retr st = { st with retrieved_docs := [] } ∧
    decideNextStep judge (retrieveDocs retr st) =
      .ok (.agent_search, 0) := by
  have h1 : retrieveDocs retr st = { st with retrieved_docs := [] } := by
    simp [retrieveDocs, h]
  refine ⟨h1, ?_⟩
  rw [h1]
  simp [decideNextStep]

/-- C10 witness: a concrete raising retriever yields empty documents and the
AGENT_SEARCH decision. -/
theorem retrieval_failure_forces_agent_search_witness :
    retrieveDocs (fun _ => Except.error "disk error")
        { question := "q", retrieved_docs := [docEx] } =
      { question := "q", retrieved_docs := [], answer := none } ∧
    decideNextStep (fun _ _ => Except.ok "oui")
        (retrieveDocs (fun _ => Except.error "disk error")
          { question := "q", retrieved_docs := [docEx] }) =
      Except.ok (Decision.agent_search, 0) :=
  retrieval_failure_forces_agent_search _ _ _ _ rfl

/-- C6: if the direct path is chosen and the generation-model call fails, the
failure propagates out of the turn as an error — never silently swallowed or
replaced by a fabricated answer. -/
theorem direct_answer_failure_propagates
    (retr : String → Except String (List Document))
    (judge : String → String → Except String String)
    (llm : String → String → Except String String)
    (agent : String → Except String String) (q e : String) (n : Nat)
    (hd : decideNextStep judge (retrieveDocs retr { question := q }) =
      .ok (.generate_direct, n))
    (hl : ∀ c qq, llm c qq = .error e) :
    runTurn retr judge llm agent q = .error e := by
  simp only [runTurn, hd, generateDirectAnswer, hl]

/-- C6 witness: with retrieved documents, an affirmative judge and a failing
generation model, the whole turn surfaces the generation error. -/
theorem direct_answer_failure_propagates_witness :
    runTurn (fun _ => Except.ok [docEx]) (fun _ _ => Except.ok "oui")
        (fun _ _ => Except.error "model unreachable")
        (fun _ => Except.ok "a") "q" =
      Except.error "model unreachable" :=
  direct_answer_failure_propagates _ _ _ _ _ _ 1 rfl (fun _ _ => rfl)

/-- C7: if the agent path is chosen and the agent call fails, the turn still
completes normally with the user-visible error message substituted as the
answer. -/
theorem agent_failure_yields_error_answer
    (retr : String → Except String (List Document))
    (judge : String → String → Except String String)
    (llm : String → String → Except String String)
    (agent : String → Except String String) (q e : String) (n : Nat)
    (hd : decideNextStep judge (retrieveDocs retr { question := q }) =
      .ok (.agent_search, n))
    (ha : agent q = .error e) :
    runTurn retr judge llm agent q =
      .ok (["retriever", "agent_search"],
        { retrieveDocs retr { question := q } with
            answer := some ("Erreur de l\x27agent : " ++ e) }) := by
  have ha' : agent (retrieveDocs retr { question := q }).question = .error e := by
    rw [retrieveDocs_question]
    exact ha
  simp only [runTurn, hd, generateAnswer, ha']

/-- C7 witness: with a failing retriever (hence the agent path) and a failing
agent, the turn still completes with the error-message answer. -/
theorem agent_failure_yields_error_answer_witness :
    runTurn (fun _ => Except.error "index down") (fun _ _ => Except.ok "oui")
        (fun _ _ => Except.ok "a") (fun _ => Except.error "LLM unreachable") "q" =
      Except.ok (["retriever", "agent_search"],
        { retrieveDocs (fun _ => Except.error "index down") { question := "q" } with
            answer := some ("Erreur de l\x27agent : " ++ "LLM unreachable") }) :=
  agent_failure_yields_error_answer _ _ _ _ _ _ 0 rfl rfl

/-- C9: every turn that completes executes the node trace
retriever → generate_direct or retriever → agent_search: a single
top-to-bottom pass in which exactly one of the two answer branches runs (and
produces an answer), with no branch re-entry. -/
theorem turn_executes_exactly_one_branch
    (retr : String → Except String (List Document))
    (judge : String → String → Except String String)
    (llm : String → String → Except String String)
    (agent : String → Except String String) (q : String)
    (tr : List String) (st : RAGState)
    (h : runTurn retr judge llm agent q = .ok (tr, st)) :
    (tr = ["retriever", "generate_direct"] ∨
      tr = ["retriever", "agent_search"]) ∧ st.answer.isSome := by
  simp only [runTurn] at h
  rcases hdd : decideNextStep judge (retrieveDocs retr { question := q }) with e | ⟨d, n⟩
  · rw [hdd] at h
    exact absurd h (by simp)
  · rw [hdd] at h
    cases d
    · rcases hga : generateDirectAnswer llm (retrieveDocs retr { question := q })
        with e2 | st2
      · rw [hga] at h
        exact absurd h (by simp)
      · rw [hga] at h
        cases h
        exact ⟨Or.inl rfl, generateDirectAnswer_ok_answer_isSome _ _ _ hga⟩
    · cases h
      exact ⟨Or.inr rfl, generateAnswer_answer_isSome _ _⟩

/-- C9 witness: a concrete completed turn through the agent branch. -/
theorem turn_executes_exactly_one_branch_witness :
    (["retriever", "agent_search"] = ["retriever", "generate_direct"] ∨
      ["retriever", "agent_search"] = ["retriever", "agent_search"]) ∧
    ({ question := "q", retrieved_docs := [], answer := some "hello" }
      : RAGState).answer.isSome :=
  turn_executes_exactly_one_branch (fun _ => Except.error "x")
    (fun _ _ => Except.ok "irrelevant") (fun _ _ => Except.ok "ans")
    (fun _ => Except.ok "hello") "q" _ _ rfl

/-
Case-insensitivity of the affirmative-token test: `strip()` cannot create or
destroy an occurrence of `"oui"` (which contains no whitespace), so the
source's `"oui" in response.strip().lower()` coincides with a case-insensitive
occurrence of the token in the raw response.
-/

theorem toLower_isWhitespace (c : Char) :
    (Char.toLower c).isWhitespace = c.isWhitespace := by
  by_cases hw : c.isWhitespace = true
  · simp only [Char.isWhitespace, Bool.or_eq_true, decide_eq_true_eq] at hw
    rcases hw with ((h | h) | h) | h <;> subst h <;> decide
  · have hw' : c.isWhitespace = false := by
      revert hw
      cases c.isWhitespace <;> simp
    rw [hw']
    simp only [Char.toLower]
    split
    · next h =>
      obtain ⟨h1, h2⟩ := h
      generalize c.toNat = n at h1 h2
      interval_cases n <;> decide
    · exact hw'

theorem stripChars_lowerChars (l : List Char) :
    stripChars (lowerChars l) = lowerChars (stripChars l) := by
  have hfun : (Char.isWhitespace ∘ Char.toLower) = Char.isWhitespace :=
    funext fun c => toLower_isWhitespace c
  unfold stripChars lowerChars
  rw [List.dropWhile_map, hfun, ← List.map_reverse, List.dropWhile_map, hfun,
    ← List.map_reverse]

theorem containsTok_iff (pat l : List Char) :
    containsTok pat l = true ↔ pat <:+: l := by
  induction l with
  | nil => simp [containsTok]
  | cons c rest ih =>
    simp [containsTok, ih, List.infix_cons_iff]

theorem infix_dropWhile_append {α : Type} (p : α → Bool) (c : α)
    (pat b : List α) (hc : p c = false) :
    ∀ a : List α, (c :: pat) <:+: List.dropWhile p (a ++ (c :: pat) ++ b)
  | [] => by
    simp only [List.nil_append, List.cons_append, List.dropWhile_cons, hc]
    exact ⟨[], b, by simp⟩
  | x :: a => by
    rw [List.cons_append, List.cons_append, List.dropWhile_cons]
    by_cases hx : p x
    · simp only [hx, if_true]
      exact infix_dropWhile_append p c pat b hc a
    · simp only [hx, if_false]
      exact ⟨x :: a, b, by simp⟩

theorem infix_stripChars_iff {pat l : List Char} (hne : pat ≠ [])
    (hws : ∀ c ∈ pat, c.isWhitespace = false) :
    pat <:+: stripChars l ↔ pat <:+: l := by
  constructor
  · intro h
    refine h.trans ?_
    have h2 : (l.dropWhile Char.isWhitespace).reverse.dropWhile Char.isWhitespace
        <:+ (l.dropWhile Char.isWhitespace).reverse := List.dropWhile_suffix _
    have h3 : stripChars l <+: l.dropWhile Char.isWhitespace := by
      unfold stripChars
      have := List.reverse_prefix.mpr h2
      rwa [List.reverse_reverse] at this
    exact h3.isInfix.trans (List.dropWhile_suffix _).isInfix
  · intro h
    obtain ⟨c, pat', rfl⟩ := List.exists_cons_of_ne_nil hne
    have hc : Char.isWhitespace c = false := hws c (by simp)
    obtain ⟨s, t, hst⟩ := h
    have hstep1 : (c :: pat') <:+: l.dropWhile Char.isWhitespace := by
      rw [← hst]
      exact infix_dropWhile_append _ c pat' t hc s
    obtain ⟨s2, t2, hst2⟩ := hstep1
    have hrev : (l.dropWhile Char.isWhitespace).reverse =
        t2.reverse ++ (c :: pat').reverse ++ s2.reverse := by
      rw [← hst2]
      simp [List.reverse_append]
    obtain ⟨d, rp', hd⟩ :=
      List.exists_cons_of_ne_nil (show (c :: pat').reverse ≠ [] by simp)
    have hdws : Char.isWhitespace d = false := by
      apply hws
      have : d ∈ (c :: pat').reverse := by rw [hd]; simp
      exact List.mem_reverse.mp this
    have hstep2 : (c :: pat').reverse <:+:
        ((l.dropWhile Char.isWhitespace).reverse).dropWhile Char.isWhitespace := by
      rw [hrev, hd]
      exact infix_dropWhile_append _ d rp' s2.reverse hdws t2.reverse
    have := List.reverse_infix.mpr hstep2
    rwa [List.reverse_reverse] at this

theorem containsTok_oui_stripChars (l : List Char) :
    containsTok ouiTok (lowerChars (stripChars l)) =
      containsTok ouiTok (lowerChars l) := by
  rw [← stripChars_lowerChars]
  have h := @infix_stripChars_iff ouiTok (lowerChars l)
    (by decide) (by decide)
  have h1 := containsTok_iff ouiTok (stripChars (lowerChars l))
  have h2 := containsTok_iff ouiTok (lowerChars l)
  cases hx : containsTok ouiTok (stripChars (lowerChars l)) <;>
    cases hy : containsTok ouiTok (lowerChars l) <;> simp_all

/-- C3: with a non-empty document list and a judge that returns `resp`, the
gate decides DIRECT_ANSWER exactly when `resp` contains a case-insensitive
occurrence of the affirmative token `"oui"`; any other response yields
AGENT_SEARCH (one judge call either way). -/
theorem nonempty_docs_direct_iff_affirmative
    (judge : String → String → Except String String) (st : RAGState)
    (resp : String) (hne : st.retrieved_docs ≠ [])
    (hj : judge st.question (contextOf st.retrieved_docs) = .ok resp) :
    decideNextStep judge st =
      .ok ((if occursCI "oui" resp then Decision.generate_direct
            else Decision.agent_search), 1) := by
  have hkey : containsTok ouiTok (lowerChars (stripChars resp.data)) =
      occursCI "oui" resp := by
    rw [containsTok_oui_stripChars]
    have hdata : lowerChars "oui".data = ouiTok := by decide
    rw [occursCI, hdata]
  unfold decideNextStep
  rw [if_neg hne, hj]
  simp only [hkey]
  by_cases ho : occursCI "oui" resp <;> simp [ho]

/-- C3 witness: a mixed-case affirmative response routed through the gate. -/
theorem nonempty_docs_direct_iff_affirmative_witness :
    decideNextStep (fun _ _ => Except.ok " Oui, absolument ")
        { question := "q", retrieved_docs := [docEx] } =
      Except.ok ((if occursCI "oui" " Oui, absolument " then
          Decision.generate_direct else Decision.agent_search), 1) :=
  nonempty_docs_direct_iff_affirmative _ _ _ (by simp) rfl

/-
The hybrid retrieval pipeline: fusion symmetry, degradation, and the
`retrieve` contract.
-/

theorem mem_scored_mergeSort {ce : String → Document → ℚ} {q : String}
    {cands : List Document} {p : Document × ℚ}
    (hp : p ∈ (cands.map (fun d => (d, ce q d))).mergeSort
      (fun a b => decide (b.2 ≤ a.2))) :
    p.2 = ce q p.1 ∧ p.1 ∈ cands := by
  have h1 := (List.mergeSort_perm _ _).mem_iff.mp hp
  obtain ⟨d, hd, rfl⟩ := List.mem_map.mp h1
  exact ⟨rfl, hd⟩

theorem rerank_subset (ce : String → Document → ℚ) (q : String)
    (cands : List Document) : rerank ce q cands ⊆ cands := by
  intro d hd
  unfold rerank at hd
  obtain ⟨p, hmem, rfl⟩ := List.mem_map.mp hd
  exact (mem_scored_mergeSort (List.mem_of_mem_take hmem)).2

theorem rerank_ne_nil (ce : String → Document → ℚ) (q : String)
    (cands : List Document) (h : cands ≠ []) : rerank ce q cands ≠ [] := by
  unfold rerank
  intro hnil
  rw [List.map_eq_nil_iff, List.take_eq_nil_iff] at hnil
  rcases hnil with h3 | hms
  · exact absurd h3 (by norm_num)
  · have hlen := congrArg List.length hms
    simp at hlen
    exact h hlen

theorem fuse_docs_mem (D S : List (Document × ℚ)) (wd ws : ℚ) (d : Document) :
    d ∈ (fuse D S wd ws).map Prod.fst ↔
      d ∈ D.map Prod.fst ∨ d ∈ S.map Prod.fst := by
  unfold fuse
  rw [((List.mergeSort_perm _ _).map Prod.fst).mem_iff]
  simp [List.mem_dedup]

theorem fuse_docs_ne_nil (D : List (Document × ℚ)) (S : List (Document × ℚ))
    (wd ws : ℚ) (h : D ≠ [] ∨ S ≠ []) :
    (fuse D S wd ws).map Prod.fst ≠ [] := by
  have hmem : ∃ d, d ∈ (fuse D S wd ws).map Prod.fst := by
    rcases h with h | h
    · obtain ⟨p, hp⟩ := List.exists_mem_of_ne_nil D h
      exact ⟨p.1, (fuse_docs_mem ..).mpr (Or.inl (List.mem_map_of_mem _ hp))⟩
    · obtain ⟨p, hp⟩ := List.exists_mem_of_ne_nil S h
      exact ⟨p.1, (fuse_docs_mem ..).mpr (Or.inr (List.mem_map_of_mem _ hp))⟩
  obtain ⟨d, hd⟩ := hmem
  exact List.ne_nil_of_mem hd

theorem rerank_length_le (ce : String → Document → ℚ) (q : String)
    (cands : List Document) : (rerank ce q cands).length ≤ 3 := by
  unfold rerank
  simp [List.length_take]

theorem rerank_sorted (ce : String → Document → ℚ) (q : String)
    (cands : List Document) :
    List.Pairwise (fun a b => ce q b ≤ ce q a) (rerank ce q cands) := by
  unfold rerank
  rw [List.pairwise_map]
  have hsorted : ((cands.map (fun d => (d, ce q d))).mergeSort
      (fun a b => decide (b.2 ≤ a.2))).Pairwise
      (fun a b => decide (b.2 ≤ a.2) = true) := by
    apply List.sorted_mergeSort
    · intro a b c hab hbc
      simp only [decide_eq_true_eq] at hab hbc ⊢
      exact le_trans hbc hab
    · intro a b
      simp only [Bool.or_eq_true, decide_eq_true_eq]
      exact le_total b.2 a.2
  have htake := hsorted.sublist (List.take_sublist 3 _)
  refine htake.imp_of_mem ?_
  intro a b ha hb hab
  have ha2 := (mem_scored_mergeSort (List.mem_of_mem_take ha)).1
  have hb2 := (mem_scored_mergeSort (List.mem_of_mem_take hb)).1
  simp only [decide_eq_true_eq] at hab
  rw [← ha2, ← hb2]
  exact hab

/-- C8: fusing (D, S) and (S, D) with equal weights (0.5, 0.5) yields the same
candidate set with the same fused scores, pre-rerank: the two fused scored
lists are permutations of each other (only tie order may differ). -/
theorem fuse_comm_equal_weights (D S : List (Document × ℚ)) :
    List.Perm (fuse D S (1/2) (1/2)) (fuse S D (1/2) (1/2)) := by
  have hfun : (fun d => (d, fusedScore (1/2) (1/2) D S d)) =
      (fun d => (d, fusedScore (1/2) (1/2) S D d)) := by
    funext d
    simp only [fusedScore]
    rw [add_comm]
  unfold fuse
  rw [hfun]
  exact (List.mergeSort_perm _ _).trans
    ((List.perm_append_comm.dedup.map _).trans (List.mergeSort_perm _ _).symm)

/-- C5: with exactly one sub-index unavailable, retrieval still returns a
non-empty result (when the remaining index has candidates) computed from the
remaining index alone — every returned document comes from the remaining
index — rather than failing or returning an empty result. -/
theorem single_index_degradation
    (D S : List (Document × ℚ)) (ce : String → Document → ℚ) (q : String)
    (hD : D ≠ []) (hS : S ≠ []) :
    retrieveAvail (some D) none ce q ⊆ D.map Prod.fst ∧
    retrieveAvail (some D) none ce q ≠ [] ∧
    retrieveAvail none (some S) ce q ⊆ S.map Prod.fst ∧
    retrieveAvail none (some S) ce q ≠ [] := by
  refine ⟨?_, ?_, ?_, ?_⟩
  · intro d hd
    have h1 := rerank_subset ce q _ hd
    rcases (fuse_docs_mem D [] (1/2) (1/2) d).mp h1 with h2 | h2
    · exact h2
    · simp at h2
  · exact rerank_ne_nil ce q _ (fuse_docs_ne_nil D [] _ _ (Or.inl hD))
  · intro d hd
    have h1 := rerank_subset ce q _ hd
    rcases (fuse_docs_mem [] S (1/2) (1/2) d).mp h1 with h2 | h2
    · simp at h2
    · exact h2
  · exact rerank_ne_nil ce q _ (fuse_docs_ne_nil [] S _ _ (Or.inr hS))

/-- C5 witness: concrete one-element indices, each side degraded in turn. -/
theorem single_index_degradation_witness :
    retrieveAvail (some [(({ page_content := "a" } : Document), 1)]) none
        (fun _ _ => 0) "q" ⊆
      [(({ page_content := "a" } : Document), (1:ℚ))].map Prod.fst ∧
    retrieveAvail (some [(({ page_content := "a" } : Document), 1)]) none
        (fun _ _ => 0) "q" ≠ [] ∧
    retrieveAvail none (some [(({ page_content := "b" } : Document), 1)])
        (fun _ _ => 0) "q" ⊆
      [(({ page_content := "b" } : Document), (1:ℚ))].map Prod.fst ∧
    retrieveAvail none (some [(({ page_content := "b" } : Document), 1)])
        (fun _ _ => 0) "q" ≠ [] :=
  single_index_degradation _ _ _ _ (by simp) (by simp)

/-- C1: `retrieve` returns at most `N_final = 3` documents, ordered by
non-increasing rerank (cross-encoder) score, and for an empty corpus it
returns `[]` as a valid, non-error result. -/
theorem retrieve_contract (sim bm ce : String → Document → ℚ)
    (corpus : List Document) (q : String) :
    (retrieve sim bm ce corpus q).length ≤ 3 ∧
    List.Pairwise (fun a b => ce q b ≤ ce q a) (retrieve sim bm ce corpus q) ∧
    (corpus = [] → retrieve sim bm ce corpus q = []) := by
  refine ⟨rerank_length_le _ _ _, rerank_sorted _ _ _, ?_⟩
  intro h
  subst h
  simp [retrieve, retrievePipeline, denseTopK, sparseTopK, rankBy, fuse, rerank]

/-- C1 witness: the contract evaluated on the empty corpus. -/
theorem retrieve_contract_witness :
    (retrieve (fun _ _ => 0) (fun _ _ => 0) (fun _ _ => 0) [] "q").length ≤ 3 ∧
    List.Pairwise (fun _ _ => (0:ℚ) ≤ (0:ℚ))
      (retrieve (fun _ _ => 0) (fun _ _ => 0) (fun _ _ => 0) [] "q") ∧
    ([] = ([] : List Document) →
      retrieve (fun _ _ => 0) (fun _ _ => 0) (fun _ _ => 0) [] "q" = []) :=
  retrieve_contract _ _ _ _ _
